import Mathlib

/-!
Verification of the compaction-scheduling and rowset-lifecycle subsystem.

The definitions below are a shallow embedding of the C++ sources:
  * `be/src/storage/rowset/rowset.h` — the `RowsetStateMachine` and the
    runtime part of `Rowset` (`acquire`/`release`/`close`, reference count,
    resource open/close bookkeeping);
  * `be/src/storage/compaction_scheduler.cpp` — `CompactionScheduler`:
    `_check_precondition`, `_can_do_compaction_task`, `_can_do_compaction`,
    `_try_get_next_compaction_task`, and the submit-failure undo branch of
    `schedule()`.

Concurrency is modelled as sequential interleaving: every operation is a
pure state transformer and a run is a fold over a list of operations.
Machine integers are `Nat`/`Int`; the 64-bit reader refcount uses explicit
arithmetic modulo `2^64` because the unsigned wrap of
`std::atomic<uint64_t>` on increment/decrement is observable.
-/

namespace StarRocks

/-! ## Rowset state machine (`rowset.h`, `RowsetStateMachine`) -/

inductive RowsetState where
  | ROWSET_UNLOADED
  | ROWSET_LOADED
  | ROWSET_UNLOADING
deriving DecidableEq, Repr

open RowsetState

/-- `RowsetStateMachine::on_load`: `some` is `Status::OK` carrying the new
state, `none` is `Status::InternalError`. -/
def onLoad : RowsetState → Option RowsetState
  | ROWSET_UNLOADED => some ROWSET_LOADED
  | _ => none

/-- `RowsetStateMachine::on_close(refs_by_reader)`. -/
def onClose (s : RowsetState) (refs_by_reader : Nat) : Option RowsetState :=
  match s with
  | ROWSET_LOADED =>
      if refs_by_reader = 0 then some ROWSET_UNLOADED else some ROWSET_UNLOADING
  | _ => none

/-- `RowsetStateMachine::on_release`. -/
def onRelease : RowsetState → Option RowsetState
  | ROWSET_UNLOADING => some ROWSET_UNLOADED
  | _ => none

/-! ## Rowset runtime state (`rowset.h`, `Rowset`) -/

/-- `2^64`, the modulus of the `std::atomic<uint64_t>` reader refcount. -/
def U64 : Nat := 18446744073709551616

/-- The mutable runtime part of a `Rowset`: the state machine, the reader
refcount, whether the lazily-opened resources are currently open, and two
audit counters (`closes` counts `do_close()` invocations, `loads` counts
`do_load()` invocations) used to state "released exactly once". -/
structure Rowset where
  state : RowsetState
  refs : Nat
  open_res : Bool
  closes : Nat
  loads : Nat
deriving DecidableEq, Repr

namespace Rowset

/-- A freshly constructed rowset: `ROWSET_UNLOADED`, no readers, resources
closed. -/
def mk0 : Rowset := ⟨ROWSET_UNLOADED, 0, false, 0, 0⟩

/-- `do_close()`: the (virtual) resource-release action. -/
def doClose (r : Rowset) : Rowset := { r with open_res := false, closes := r.closes + 1 }

/-- `do_load()`: the (virtual) resource-open action performed by `load()`. -/
def doLoad (r : Rowset) : Rowset := { r with open_res := true, loads := r.loads + 1 }

/-- `Rowset::acquire()`: `++_refs_by_reader` on a `uint64_t`. -/
def acquire (r : Rowset) : Rowset := { r with refs := (r.refs + 1) % U64 }

/-- `Rowset::close()` (rowset.h lines 178-203): no-op unless `ROWSET_LOADED`;
otherwise under the mutex read the refcount, `do_close()` immediately when it
is zero, then `on_close(current_refs)`; a failing transition is swallowed. -/
def close (r : Rowset) : Rowset :=
  if r.state = ROWSET_LOADED then
    -- std::lock_guard close_lock(_lock); re-read refs and state
    let current := r.refs
    let r1 := if current = 0 then doClose r else r
    match onClose r1.state current with
    | some s => { r1 with state := s }
    | none => r1 -- LOG(WARNING) "state transition failed"; swallowed
  else r

/-- `Rowset::release()` (rowset.h lines 232-251): `--_refs_by_reader` on a
`uint64_t` (wraps on underflow); when the post-decrement count is zero,
re-check under the mutex and, still zero in state `ROWSET_UNLOADING`,
`do_close()` then `on_release()`. -/
def release (r : Rowset) : Rowset :=
  let refs1 := (r.refs + (U64 - 1)) % U64
  let r1 := { r with refs := refs1 }
  if refs1 = 0 then
    -- std::lock_guard release_lock(_lock); rejudge _refs_by_reader
    if r1.refs = 0 ∧ r1.state = ROWSET_UNLOADING then
      let r2 := doClose r1
      match onRelease r2.state with
      | some s => { r2 with state := s }
      | none => r2
    else r1
  else r1

/-- Modelled from the spec: `Rowset::load()` is declared in `rowset.h` but
defined in `rowset.cpp`, which is not among the provided sources. Per the
spec, `load()` transitions `UNLOADED → LOADED` (performing the resource-open
action `do_load()` first) and is an idempotent no-op while already
`LOADED`; from any other state it does not transition. -/
def load (r : Rowset) : Rowset :=
  if r.state = ROWSET_LOADED then r
  else if r.state = ROWSET_UNLOADED then
    let r1 := doLoad r
    match onLoad r1.state with
    | some s => { r1 with state := s }
    | none => r1
  else r

end Rowset

/-- The four public rowset operations, for trace-based statements. -/
inductive ROp where
  | load
  | close
  | acquire
  | release
deriving DecidableEq, Repr

def rstep (r : Rowset) : ROp → Rowset
  | ROp.load => r.load
  | ROp.close => r.close
  | ROp.acquire => r.acquire
  | ROp.release => r.release

def rrun (r : Rowset) (ops : List ROp) : Rowset := ops.foldl rstep r

/-- Number of `acquire()` calls in a trace. -/
def acqCount : List ROp → Nat
  | [] => 0
  | ROp.acquire :: l => acqCount l + 1
  | _ :: l => acqCount l

/-- Number of `release()` calls in a trace. -/
def relCount : List ROp → Nat
  | [] => 0
  | ROp.release :: l => relCount l + 1
  | _ :: l => relCount l

/-- `balanced b ops`: starting from `b` outstanding reader references, every
`release()` in `ops` is matched by a prior `acquire()` (no prefix goes
negative). -/
def balanced : Nat → List ROp → Bool
  | _, [] => true
  | b, ROp.acquire :: l => balanced (b + 1) l
  | 0, ROp.release :: _ => false
  | b + 1, ROp.release :: l => balanced b l
  | b, _ :: l => balanced b l

/-! ## Compaction scheduler data model (`compaction_scheduler.cpp`)

`Tablet`, `CompactionManager` and `DataDir` are external collaborators of
the scheduler; their `.cpp` files are not among the provided sources, so
the pieces the scheduler calls are modelled from the spec (marked below).
The scheduler functions themselves are translated from
`compaction_scheduler.cpp`. -/

inductive CompactionType where
  | CUMULATIVE_COMPACTION
  | BASE_COMPACTION
deriving DecidableEq, Repr

open CompactionType

/-- The scheduler-visible fields of a `CompactionTask`: its kind and the
estimated input size (`input_rowsets_size()`). Everything else is opaque. -/
structure CompactionTask where
  ttype : CompactionType
  input_rowsets_size : Nat
  task_id : Int
deriving DecidableEq, Repr

/-- The scheduler-visible fields of a `Tablet`: identity, whether
`tablet_state() == TABLET_RUNNING`, per-kind `need_compaction`, the per-kind
in-flight task marker, what `get_compaction(kind, true)` would newly create
(`none` models internal construction failure), per-kind lock contention
(`true` means the non-blocking `try_to_lock` fails), per-kind last
compaction failure times in milliseconds, and the data directory. -/
structure Tablet where
  tablet_id : Nat
  running : Bool
  need_cum : Bool
  need_base : Bool
  inflight_cum : Option CompactionTask
  inflight_base : Option CompactionTask
  create_cum : Option CompactionTask
  create_base : Option CompactionTask
  cum_lock_held : Bool
  base_lock_held : Bool
  last_cum_failure_ms : Int
  last_base_failure_ms : Int
  dir : Nat
deriving DecidableEq, Repr

namespace Tablet

def needCompaction (t : Tablet) : CompactionType → Bool
  | CUMULATIVE_COMPACTION => t.need_cum
  | BASE_COMPACTION => t.need_base

def inflightFor (t : Tablet) : CompactionType → Option CompactionTask
  | CUMULATIVE_COMPACTION => t.inflight_cum
  | BASE_COMPACTION => t.inflight_base

def createFor (t : Tablet) : CompactionType → Option CompactionTask
  | CUMULATIVE_COMPACTION => t.create_cum
  | BASE_COMPACTION => t.create_base

def lockHeldFor (t : Tablet) : CompactionType → Bool
  | CUMULATIVE_COMPACTION => t.cum_lock_held
  | BASE_COMPACTION => t.base_lock_held

def lastFailureFor (t : Tablet) : CompactionType → Int
  | CUMULATIVE_COMPACTION => t.last_cum_failure_ms
  | BASE_COMPACTION => t.last_base_failure_ms

def setInflight (t : Tablet) (ty : CompactionType) (k : Option CompactionTask) : Tablet :=
  match ty with
  | CUMULATIVE_COMPACTION => { t with inflight_cum := k }
  | BASE_COMPACTION => { t with inflight_base := k }

end Tablet

/-- Modelled from the spec: `Tablet::reset_compaction(kind)` (tablet.cpp is
not among the provided sources) clears the tablet's in-flight compaction
marker for that kind ("reset the tablet's in-flight marker for that
kind"). -/
def resetCompaction (t : Tablet) (ty : CompactionType) : Tablet :=
  t.setInflight ty none

/-- Modelled from the spec: `Tablet::get_compaction(kind, create)`
(tablet.cpp is not among the provided sources). Per the spec it is
idempotent: it "returns the existing in-flight task if one already exists
for that kind"; with `create` it materializes a new task, recording it as
the in-flight task, "or `none` if the tablet does not currently need
compaction of that kind" (internal construction failure). Returns the task
and the updated tablet. -/
def getCompaction (t : Tablet) (ty : CompactionType) (create : Bool) :
    Option CompactionTask × Tablet :=
  match t.inflightFor ty with
  | some k => (some k, t)
  | none =>
      if create then
        match t.createFor ty with
        | some k => (some k, t.setInflight ty (some k))
        | none => (none, t)
      else (none, t)

/-- `CompactionCandidate` (`compaction_candidate.h`, consumed by the
scheduler): `{tablet, type, score}`; a null tablet means invalid. The
`score` is a C++ `double` on which the scheduler never computes; it is
carried here as an `Int`. -/
structure CompactionCandidate where
  tablet : Option Tablet
  ttype : CompactionType
  score : Int
deriving DecidableEq, Repr

def CompactionCandidate.is_valid (c : CompactionCandidate) : Bool := c.tablet.isSome

/-- The configuration values the scheduler reads (`common/config.h`):
per-disk thread limits (`-1` meaning unlimited) and the minimum failure
retry interval in seconds. -/
structure Config where
  cumulative_compaction_num_threads_per_disk : Int
  base_compaction_num_threads_per_disk : Int
  min_compaction_failure_interval_sec : Int

/-- The scheduler's read-only environment for one selection round: the
configuration, the current time (`UnixMillis()`), the per-disk running task
counts and capacity checks of `CompactionManager`/`DataDir`, and the global
cap predicate `check_if_exceed_max_task_num()`. -/
structure Env where
  config : Config
  now_ms : Int
  running_cumulative_tasks_num_for_dir : Nat → Nat
  running_base_tasks_num_for_dir : Nat → Nat
  reach_capacity_limit : Nat → Nat → Bool
  check_if_exceed_max_task_num : Bool

/-! ## Compaction scheduler functions (`compaction_scheduler.cpp`) -/

/-- `CompactionScheduler::_check_precondition` (lines 139-166): null tablet,
`need_compaction` false, tablet not `TABLET_RUNNING`, or an existing task of
this kind (`get_compaction(type, false)`) each fail the precondition. -/
def checkPrecondition (c : CompactionCandidate) : Bool :=
  match c.tablet with
  | none => false -- LOG(WARNING) "null tablet"
  | some t =>
      if ¬ t.needCompaction c.ttype then false
      else if ¬ t.running then false
      else
        match (getCompaction t c.ttype false).1 with
        | some _ => false -- another running compaction task
        | none => true

/-- `CompactionScheduler::_can_do_compaction_task` (lines 78-137): under a
`DeferOp` that calls `tablet->reset_compaction(type)` unless all checks
pass, try the per-kind tablet lock, check the per-disk running-count limit,
then the failure-backoff window. Returns the verdict and the tablet after
the deferred reset. -/
def canDoCompactionTask (env : Env) (t : Tablet) (task : CompactionTask) :
    Bool × Tablet :=
  let checks : Option Int :=
    match task.ttype with
    | CUMULATIVE_COMPACTION =>
        if t.cum_lock_held then none -- try_to_lock failed
        else
          let num := env.running_cumulative_tasks_num_for_dir t.dir
          if 0 ≤ env.config.cumulative_compaction_num_threads_per_disk ∧
             env.config.cumulative_compaction_num_threads_per_disk ≤ (num : Int) then none
          else some t.last_cum_failure_ms
    | BASE_COMPACTION =>
        if t.base_lock_held then none
        else
          let num := env.running_base_tasks_num_for_dir t.dir
          if 0 ≤ env.config.base_compaction_num_threads_per_disk ∧
             env.config.base_compaction_num_threads_per_disk ≤ (num : Int) then none
          else some t.last_base_failure_ms
  match checks with
  | none => (false, resetCompaction t task.ttype)
  | some last_failure_ms =>
      if env.now_ms - last_failure_ms ≤
         env.config.min_compaction_failure_interval_sec * 1000 then
        (false, resetCompaction t task.ttype) -- too often to schedule, skip
      else
        (true, t) -- found a qualified tablet; need_reset_task = false

/-- Result of `_can_do_compaction`: `found` is the return value,
`needReschedule` the out-parameter, `task` the produced compaction task and
`tabletAfter` the candidate's tablet after any marker effects. -/
structure CanDoResult where
  found : Bool
  needReschedule : Bool
  task : Option CompactionTask
  tabletAfter : Option Tablet
deriving DecidableEq, Repr

/-- `CompactionScheduler::_can_do_compaction` (lines 168-201): first
`*need_reschedule = false` and the precondition check (failure → drop);
then `*need_reschedule = true` and `get_compaction(type, true)`; when the
task materializes, the data-dir capacity check and
`_can_do_compaction_task`; `*need_reschedule = !can_do` on that path. When
materialization fails the function returns `false` with `need_reschedule`
still `true`. -/
def canDoCompaction (env : Env) (c : CompactionCandidate) : CanDoResult :=
  if ¬ checkPrecondition c then
    { found := false, needReschedule := false, task := none, tabletAfter := c.tablet }
  else
    match c.tablet with
    | none =>
        { found := false, needReschedule := false, task := none, tabletAfter := none }
    | some t =>
        match getCompaction t c.ttype true with
        | (some task, t1) =>
            if env.reach_capacity_limit t.dir task.input_rowsets_size then
              -- data dir reaches capacity limit: need_reschedule stays true
              { found := false, needReschedule := true, task := none, tabletAfter := some t1 }
            else
              let p := canDoCompactionTask env t1 task
              { found := p.1, needReschedule := !p.1,
                task := if p.1 then some task else none, tabletAfter := some p.2 }
        | (none, t1) =>
            -- creating compaction task failed: need_reschedule stays true
            { found := false, needReschedule := true, task := none, tabletAfter := some t1 }

/-- The outcome of the selection loop of `_try_get_next_compaction_task`:
the admitted `(candidate, task, tablet)` if any, the unexamined remainder of
the registry, the scratch list `tmp_candidates`, the candidates discarded
without re-queuing, the full list of popped candidates in pop order, and
whether every executed `DCHECK(found)` held. -/
structure SelectResult where
  admitted : Option (CompactionCandidate × CompactionTask × Tablet)
  rest : List CompactionCandidate
  scratch : List CompactionCandidate
  dropped : List CompactionCandidate
  popped : List CompactionCandidate
  dchecksOk : Bool
deriving Repr

/-- `CompactionScheduler::_can_schedule_next` (lines 66-69): not over the
global task cap and the registry non-empty. -/
def canScheduleNext (env : Env) (reg : List CompactionCandidate) : Bool :=
  !env.check_if_exceed_max_task_num && reg.length > 0

/-- The `while (true)` loop of `_try_get_next_compaction_task` (lines
211-235). The registry is a priority-ordered list whose head is
`pick_candidate()`; an empty registry yields the invalid candidate and the
loop breaks (this also makes `_can_schedule_next`'s emptiness test false).
Each popped candidate is re-queued into `tmp_candidates` when
`need_reschedule` holds, else `DCHECK(found)` runs; the loop breaks once a
task is found. A re-queued candidate keeps its (possibly updated) tablet,
as the C++ candidate holds a shared pointer to the mutated tablet. -/
def selectLoop (env : Env) : List CompactionCandidate → SelectResult
  | [] =>
      -- pick_candidate() on an empty registry returns an invalid candidate
      { admitted := none, rest := [], scratch := [], dropped := [], popped := [],
        dchecksOk := true }
  | c :: rest =>
      if env.check_if_exceed_max_task_num then
        -- _can_schedule_next() is false: break, leaving the registry as is
        { admitted := none, rest := c :: rest, scratch := [], dropped := [], popped := [],
          dchecksOk := true }
      else
        let r := canDoCompaction env c
        let c1 : CompactionCandidate := { c with tablet := r.tabletAfter }
        if r.found then
          { admitted := match r.task, r.tabletAfter with
              | some task, some t => some (c, task, t)
              | _, _ => none,
            rest := rest,
            scratch := if r.needReschedule then [c1] else [],
            dropped := [],
            popped := [c],
            dchecksOk := r.needReschedule || r.found }
        else
          let sub := selectLoop env rest
          if r.needReschedule then
            { sub with scratch := c1 :: sub.scratch, popped := c :: sub.popped,
                       dchecksOk := (r.needReschedule || r.found) && sub.dchecksOk }
          else
            -- DCHECK(found) executes here with found = false
            { sub with dropped := c1 :: sub.dropped, popped := c :: sub.popped,
                       dchecksOk := (r.needReschedule || r.found) && sub.dchecksOk }

/-- `CompactionScheduler::_try_get_next_compaction_task` (lines 203-247):
run the selection loop, then bulk re-insert the scratch list into the
registry in one `insert_candidates` call. Returns the admitted task (if
any) and the resulting registry. -/
def tryGetNextCompactionTask (env : Env) (reg : List CompactionCandidate) :
    Option (CompactionCandidate × CompactionTask × Tablet) × List CompactionCandidate :=
  let r := selectLoop env reg
  (r.admitted, r.rest ++ r.scratch)

/-- Result of one found-a-task arm of `CompactionScheduler::schedule`. -/
structure ScheduleResult where
  registryAfter : List CompactionCandidate
  submitted : Option CompactionTask
  tabletAfter : Option Tablet
deriving Repr

/-- One round of `CompactionScheduler::schedule` (lines 33-58), with the
worker-pool submission outcome supplied as `submitOk`: on submission
failure the scheduler calls `tablet->reset_compaction(type)` and pushes a
fresh candidate `{tablet, type}` (default score) for the same tablet and
kind back into the registry via `update_candidates`. -/
def scheduleOnce (env : Env) (reg : List CompactionCandidate) (submitOk : Bool) :
    ScheduleResult :=
  let p := tryGetNextCompactionTask env reg
  match p.1 with
  | none => { registryAfter := p.2, submitted := none, tabletAfter := none }
  | some (_c, task, t) =>
      if submitOk then
        { registryAfter := p.2, submitted := some task, tabletAfter := some t }
      else
        let t1 := resetCompaction t task.ttype
        { registryAfter := p.2 ++ [{ tablet := some t1, ttype := task.ttype, score := 0 }],
          submitted := none, tabletAfter := some t1 }

/-- The per-kind thread-per-disk limit the scheduler compares against
(`config::cumulative_compaction_num_threads_per_disk` /
`config::base_compaction_num_threads_per_disk`). -/
def capFor (env : Env) : CompactionType → Int
  | CUMULATIVE_COMPACTION => env.config.cumulative_compaction_num_threads_per_disk
  | BASE_COMPACTION => env.config.base_compaction_num_threads_per_disk

/-- The per-kind running-task count for the tablet's data directory
(`running_cumulative_tasks_num_for_dir` / `running_base_tasks_num_for_dir`). -/
def runningFor (env : Env) (t : Tablet) : CompactionType → Nat
  | CUMULATIVE_COMPACTION => env.running_cumulative_tasks_num_for_dir t.dir
  | BASE_COMPACTION => env.running_base_tasks_num_for_dir t.dir

/-! ## Invariant predicates -/

/-- The spec's rowset invariant, with the exactly-once accounting: resources
are open iff `LOADED` or (`UNLOADING` with readers), every completed
`LOADED` episode ran `do_close()` exactly once (`closes` lags `loads` by
exactly the currently-open episode), and `UNLOADING` always has readers. -/
def InvC2 (r : Rowset) : Prop :=
  (r.open_res = true ↔
    (r.state = ROWSET_LOADED ∨ (r.state = ROWSET_UNLOADING ∧ 0 < r.refs))) ∧
  r.closes + (if r.open_res then 1 else 0) = r.loads ∧
  (r.state = ROWSET_UNLOADING → 0 < r.refs)

/-- Configuration of a loaded rowset before `close()` has been observed. -/
def PreC4 (r : Rowset) : Prop :=
  r.state = ROWSET_LOADED ∧ r.open_res = true ∧ r.closes = 0

/-- Configuration after `close()` has been observed on a loaded rowset:
either still draining readers, or fully closed with `do_close()` run once. -/
def PostC4 (r : Rowset) : Prop :=
  (r.state = ROWSET_UNLOADING ∧ 0 < r.refs ∧ r.open_res = true ∧ r.closes = 0) ∨
  (r.state = ROWSET_UNLOADED ∧ r.open_res = false ∧ r.closes = 1)

/-! ## Concrete instances for counterexamples and witnesses -/

/-- Trace breaking the unrestricted C2 invariant: the unmatched `release()`
wraps the `uint64_t` refcount to `2^64 - 1`, so the subsequent `close()`
sees readers and goes to `UNLOADING` without releasing resources, and one
more `acquire()` wraps the count back to `0`. -/
def cexOpsC2 : List ROp := [ROp.load, ROp.release, ROp.close, ROp.acquire]

/-- A full well-formed episode: load, one reader, close while held, drain. -/
def witOpsC2 : List ROp := [ROp.load, ROp.acquire, ROp.close, ROp.release]

/-- Matched acquire/release trace with a `close()`, on a never-loaded
rowset: `close()` is a no-op from `UNLOADED`, so `do_close()` never runs. -/
def cexOpsC4 : List ROp := [ROp.acquire, ROp.close, ROp.release]

def witOpsC4 : List ROp := [ROp.acquire, ROp.close, ROp.release]

def envC1 : Env :=
  { config := { cumulative_compaction_num_threads_per_disk := -1,
                base_compaction_num_threads_per_disk := -1,
                min_compaction_failure_interval_sec := 1 },
    now_ms := 999999,
    running_cumulative_tasks_num_for_dir := fun _ => 0,
    running_base_tasks_num_for_dir := fun _ => 0,
    reach_capacity_limit := fun _ _ => false,
    check_if_exceed_max_task_num := false }

/-- Tablet passing the precondition whose task materialization fails:
running, needing cumulative compaction, no in-flight task, but
`get_compaction(CUMULATIVE, true)` produces nothing. -/
def tabC1 : Tablet :=
  { tablet_id := 1, running := true, need_cum := true, need_base := false,
    inflight_cum := none, inflight_base := none,
    create_cum := none, create_base := none,
    cum_lock_held := false, base_lock_held := false,
    last_cum_failure_ms := 0, last_base_failure_ms := 0, dir := 0 }

def candC1 : CompactionCandidate :=
  { tablet := some tabC1, ttype := CUMULATIVE_COMPACTION, score := 10 }

def envC5 : Env :=
  { config := { cumulative_compaction_num_threads_per_disk := -1,
                base_compaction_num_threads_per_disk := -1,
                min_compaction_failure_interval_sec := 1 },
    now_ms := 999999,
    running_cumulative_tasks_num_for_dir := fun _ => 0,
    running_base_tasks_num_for_dir := fun _ => 0,
    reach_capacity_limit := fun _ _ => false,
    check_if_exceed_max_task_num := false }

/-- Tablet failing the precondition: not in `TABLET_RUNNING` state. -/
def tabC5drop : Tablet :=
  { tablet_id := 5, running := false, need_cum := true, need_base := false,
    inflight_cum := none, inflight_base := none,
    create_cum := none, create_base := none,
    cum_lock_held := false, base_lock_held := false,
    last_cum_failure_ms := 0, last_base_failure_ms := 0, dir := 0 }

def taskC5 : CompactionTask :=
  { ttype := CUMULATIVE_COMPACTION, input_rowsets_size := 100, task_id := 0 }

/-- Tablet failing only the transient try-lock check: its cumulative lock
is held externally. -/
def tabC5lock : Tablet :=
  { tablet_id := 6, running := true, need_cum := true, need_base := false,
    inflight_cum := none, inflight_base := none,
    create_cum := some taskC5, create_base := none,
    cum_lock_held := true, base_lock_held := false,
    last_cum_failure_ms := 0, last_base_failure_ms := 0, dir := 0 }

def candC5drop : CompactionCandidate :=
  { tablet := some tabC5drop, ttype := CUMULATIVE_COMPACTION, score := 9 }

def candC5lock : CompactionCandidate :=
  { tablet := some tabC5lock, ttype := CUMULATIVE_COMPACTION, score := 8 }

def envC6 : Env :=
  { config := { cumulative_compaction_num_threads_per_disk := -1,
                base_compaction_num_threads_per_disk := -1,
                min_compaction_failure_interval_sec := 1 },
    now_ms := 999999,
    running_cumulative_tasks_num_for_dir := fun _ => 0,
    running_base_tasks_num_for_dir := fun _ => 0,
    reach_capacity_limit := fun _ _ => false,
    check_if_exceed_max_task_num := false }

def taskC6 : CompactionTask :=
  { ttype := CUMULATIVE_COMPACTION, input_rowsets_size := 100, task_id := 0 }

/-- Tablet on which every admission check passes. -/
def tabC6 : Tablet :=
  { tablet_id := 7, running := true, need_cum := true, need_base := false,
    inflight_cum := none, inflight_base := none,
    create_cum := some taskC6, create_base := none,
    cum_lock_held := false, base_lock_held := false,
    last_cum_failure_ms := 0, last_base_failure_ms := 0, dir := 0 }

def candC6 : CompactionCandidate :=
  { tablet := some tabC6, ttype := CUMULATIVE_COMPACTION, score := 7 }

/-- `tabC6` after `get_compaction(CUMULATIVE, true)` recorded the created
task as in flight. -/
def tabC6after : Tablet := { tabC6 with inflight_cum := some taskC6 }

def envC7 : Env :=
  { config := { cumulative_compaction_num_threads_per_disk := -1,
                base_compaction_num_threads_per_disk := -1,
                min_compaction_failure_interval_sec := 10 },
    now_ms := 5000,
    running_cumulative_tasks_num_for_dir := fun _ => 0,
    running_base_tasks_num_for_dir := fun _ => 0,
    reach_capacity_limit := fun _ _ => false,
    check_if_exceed_max_task_num := false }

def taskC7 : CompactionTask :=
  { ttype := CUMULATIVE_COMPACTION, input_rowsets_size := 50, task_id := 0 }

/-- Tablet whose last cumulative failure was at time 0; with
`now_ms = 5000` and a 10-second minimum interval it is inside the backoff
window. -/
def tabC7 : Tablet :=
  { tablet_id := 8, running := true, need_cum := true, need_base := false,
    inflight_cum := none, inflight_base := none,
    create_cum := some taskC7, create_base := none,
    cum_lock_held := false, base_lock_held := false,
    last_cum_failure_ms := 0, last_base_failure_ms := 0, dir := 0 }

def candC7 : CompactionCandidate :=
  { tablet := some tabC7, ttype := CUMULATIVE_COMPACTION, score := 6 }

def envC9 : Env :=
  { config := { cumulative_compaction_num_threads_per_disk := -1,
                base_compaction_num_threads_per_disk := -1,
                min_compaction_failure_interval_sec := 10 },
    now_ms := 5000,
    running_cumulative_tasks_num_for_dir := fun _ => 0,
    running_base_tasks_num_for_dir := fun _ => 0,
    reach_capacity_limit := fun _ _ => false,
    check_if_exceed_max_task_num := false }

def taskC9 : CompactionTask :=
  { ttype := BASE_COMPACTION, input_rowsets_size := 10, task_id := 0 }

/-- Tablet whose base lock is held, so `_can_do_compaction_task` fails and
the deferred `reset_compaction` fires; no task is currently in flight. -/
def tabC9 : Tablet :=
  { tablet_id := 9, running := true, need_cum := false, need_base := true,
    inflight_cum := none, inflight_base := none,
    create_cum := none, create_base := none,
    cum_lock_held := false, base_lock_held := true,
    last_cum_failure_ms := 0, last_base_failure_ms := 0, dir := 0 }

def envC10 : Env :=
  { config := { cumulative_compaction_num_threads_per_disk := -1,
                base_compaction_num_threads_per_disk := -1,
                min_compaction_failure_interval_sec := 1 },
    now_ms := 999999,
    running_cumulative_tasks_num_for_dir := fun _ => 0,
    running_base_tasks_num_for_dir := fun _ => 0,
    reach_capacity_limit := fun _ _ => false,
    check_if_exceed_max_task_num := false }

/-- Tablet that fails the precondition because `need_compaction` is false;
the candidate is reachable in any selection round. -/
def tabC10 : Tablet :=
  { tablet_id := 10, running := true, need_cum := false, need_base := false,
    inflight_cum := none, inflight_base := none,
    create_cum := none, create_base := none,
    cum_lock_held := false, base_lock_held := false,
    last_cum_failure_ms := 0, last_base_failure_ms := 0, dir := 0 }

def candC10 : CompactionCandidate :=
  { tablet := some tabC10, ttype := CUMULATIVE_COMPACTION, score := 5 }

/-! ## Helper lemmas: traces and counters -/

lemma rrun_cons (r : Rowset) (op : ROp) (l : List ROp) :
    rrun r (op :: l) = rrun (rstep r op) l := rfl

lemma balanced_load (b : Nat) (l : List ROp) :
    balanced b (ROp.load :: l) = balanced b l := by
  cases b <;> rfl

lemma balanced_close (b : Nat) (l : List ROp) :
    balanced b (ROp.close :: l) = balanced b l := by
  cases b <;> rfl

lemma balanced_acquire (b : Nat) (l : List ROp) :
    balanced b (ROp.acquire :: l) = balanced (b + 1) l := by
  cases b <;> rfl

lemma balanced_release (b : Nat) (l : List ROp)
    (h : balanced b (ROp.release :: l) = true) :
    0 < b ∧ balanced (b - 1) l = true := by
  cases b with
  | zero => simp [balanced] at h
  | succ n => exact ⟨Nat.succ_pos n, h⟩

lemma acqCount_cons (op : ROp) (l : List ROp) :
    acqCount (op :: l) = (if op = ROp.acquire then 1 else 0) + acqCount l := by
  cases op
  all_goals simp [acqCount, Nat.add_comm]

lemma relCount_cons (op : ROp) (l : List ROp) :
    relCount (op :: l) = (if op = ROp.release then 1 else 0) + relCount l := by
  cases op
  all_goals simp [relCount, Nat.add_comm]

/-! ## Helper lemmas: single-step refcount arithmetic -/

lemma U64_pos : 0 < U64 := by decide

lemma sub_one_mod_U64 (n : Nat) (h0 : 0 < n) (h1 : n < U64) :
    (n + (U64 - 1)) % U64 = n - 1 := by
  have hU : 0 < U64 := U64_pos
  have he : n + (U64 - 1) = (n - 1) + U64 := by omega
  rw [he, Nat.add_mod_right, Nat.mod_eq_of_lt (by omega)]

lemma load_refs (r : Rowset) : r.load.refs = r.refs := by
  obtain ⟨s, refs, o, c, l⟩ := r
  cases s <;> simp [Rowset.load, Rowset.doLoad, onLoad]

lemma close_refs (r : Rowset) : r.close.refs = r.refs := by
  obtain ⟨s, refs, o, c, l⟩ := r
  cases s <;> by_cases h0 : refs = 0 <;>
    simp [Rowset.close, Rowset.doClose, onClose, h0]

lemma acquire_refs (r : Rowset) (h : r.refs + 1 < U64) :
    r.acquire.refs = r.refs + 1 := by
  simp [Rowset.acquire, Nat.mod_eq_of_lt h]

lemma release_refs_raw (r : Rowset) :
    r.release.refs = (r.refs + (U64 - 1)) % U64 := by
  obtain ⟨s, refs, o, c, l⟩ := r
  by_cases h0 : (refs + (U64 - 1)) % U64 = 0 <;> cases s <;>
    simp [Rowset.release, Rowset.doClose, onRelease, h0]

lemma release_refs (r : Rowset) (h0 : 0 < r.refs) (h1 : r.refs < U64) :
    r.release.refs = r.refs - 1 := by
  rw [release_refs_raw, sub_one_mod_U64 r.refs h0 h1]

/-! ## Helper lemmas: shape of load, close and release -/

lemma close_of_not_loaded (r : Rowset) (h : ¬ r.state = ROWSET_LOADED) :
    r.close = r := by
  obtain ⟨s, refs, o, c, l⟩ := r
  simp only at h
  simp [Rowset.close, h]

lemma close_of_loaded_zero (r : Rowset) (h : r.state = ROWSET_LOADED)
    (h0 : r.refs = 0) :
    r.close = { r with open_res := false, closes := r.closes + 1,
                       state := ROWSET_UNLOADED } := by
  obtain ⟨s, refs, o, c, l⟩ := r
  simp only at h h0
  subst h h0
  simp [Rowset.close, Rowset.doClose, onClose]

lemma close_of_loaded_pos (r : Rowset) (h : r.state = ROWSET_LOADED)
    (h0 : r.refs ≠ 0) :
    r.close = { r with state := ROWSET_UNLOADING } := by
  obtain ⟨s, refs, o, c, l⟩ := r
  simp only at h h0
  subst h
  simp [Rowset.close, Rowset.doClose, onClose, h0]

lemma load_of_unloaded (r : Rowset) (h : r.state = ROWSET_UNLOADED) :
    r.load = { r with open_res := true, loads := r.loads + 1,
                      state := ROWSET_LOADED } := by
  obtain ⟨s, refs, o, c, l⟩ := r
  simp only at h
  subst h
  simp [Rowset.load, Rowset.doLoad, onLoad]

lemma load_of_not_unloaded (r : Rowset) (h : ¬ r.state = ROWSET_UNLOADED) :
    r.load = r := by
  obtain ⟨s, refs, o, c, l⟩ := r
  simp only at h
  cases s
  · exact absurd rfl h
  · simp [Rowset.load]
  · simp [Rowset.load]

lemma release_drain (r : Rowset) (h1 : r.refs = 1)
    (hs : r.state = ROWSET_UNLOADING) :
    r.release = { r with refs := 0, open_res := false, closes := r.closes + 1,
                         state := ROWSET_UNLOADED } := by
  obtain ⟨s, refs, o, c, l⟩ := r
  simp only at h1 hs
  subst h1 hs
  have hm : ((1 : Nat) + (U64 - 1)) % U64 = 0 := by decide
  simp [Rowset.release, Rowset.doClose, onRelease, hm]

lemma release_one_not_unloading (r : Rowset) (h1 : r.refs = 1)
    (hs : ¬ r.state = ROWSET_UNLOADING) :
    r.release = { r with refs := 0 } := by
  obtain ⟨s, refs, o, c, l⟩ := r
  simp only at h1 hs
  subst h1
  have hm : ((1 : Nat) + (U64 - 1)) % U64 = 0 := by decide
  cases s
  · simp [Rowset.release, hm]
  · simp [Rowset.release, hm]
  · exact absurd rfl hs

lemma release_many (r : Rowset) (h1 : 1 < r.refs) (h2 : r.refs < U64) :
    r.release = { r with refs := r.refs - 1 } := by
  obtain ⟨s, refs, o, c, l⟩ := r
  simp only at h1 h2
  have hm : (refs + (U64 - 1)) % U64 = refs - 1 :=
    sub_one_mod_U64 refs (by omega) h2
  have hnz : ¬ (refs - 1 = 0) := by omega
  simp [Rowset.release, hm, hnz]

/-! ## Preservation of the C2 invariant -/

lemma InvC2_load (r : Rowset) (h : InvC2 r) : InvC2 r.load := by
  obtain ⟨hiff, hcnt, hun⟩ := h
  by_cases hs : r.state = ROWSET_UNLOADED
  · rw [load_of_unloaded r hs]
    have ho : r.open_res = false := by
      cases hop : r.open_res
      · rfl
      · rcases hiff.mp hop with h1 | h1 <;> rw [hs] at h1 <;> simp_all
    refine ⟨by simp, ?_, by simp⟩
    simp only [ho] at hcnt
    simp at hcnt ⊢
    omega
  · rw [load_of_not_unloaded r hs]
    exact ⟨hiff, hcnt, hun⟩

lemma InvC2_close (r : Rowset) (h : InvC2 r) : InvC2 r.close := by
  obtain ⟨hiff, hcnt, hun⟩ := h
  by_cases hs : r.state = ROWSET_LOADED
  · have ho : r.open_res = true := hiff.mpr (Or.inl hs)
    by_cases h0 : r.refs = 0
    · rw [close_of_loaded_zero r hs h0]
      refine ⟨by simp, ?_, by simp⟩
      simp only [ho, if_true] at hcnt
      simp [← hcnt]
    · rw [close_of_loaded_pos r hs h0]
      refine ⟨by simp [ho, Nat.pos_of_ne_zero h0], ?_, by simp [Nat.pos_of_ne_zero h0]⟩
      simpa using hcnt
  · rw [close_of_not_loaded r hs]
    exact ⟨hiff, hcnt, hun⟩

lemma InvC2_acquire (r : Rowset) (h : InvC2 r) (hb : r.refs + 1 < U64) :
    InvC2 r.acquire := by
  obtain ⟨hiff, hcnt, hun⟩ := h
  have hshape : r.acquire = { r with refs := r.refs + 1 } := by
    simp [Rowset.acquire, Nat.mod_eq_of_lt hb]
  rw [hshape]
  refine ⟨?_, by simpa using hcnt, by simp⟩
  simp only
  rw [hiff]
  constructor
  · rintro (h1 | ⟨h1, h2⟩)
    · exact Or.inl h1
    · exact Or.inr ⟨h1, by omega⟩
  · rintro (h1 | ⟨h1, _⟩)
    · exact Or.inl h1
    · exact Or.inr ⟨h1, by have := hun h1; omega⟩

lemma InvC2_release (r : Rowset) (h : InvC2 r) (h0 : 0 < r.refs)
    (h1 : r.refs < U64) : InvC2 r.release := by
  obtain ⟨hiff, hcnt, hun⟩ := h
  by_cases he : r.refs = 1
  · by_cases hs : r.state = ROWSET_UNLOADING
    · have ho : r.open_res = true := hiff.mpr (Or.inr ⟨hs, h0⟩)
      rw [release_drain r he hs]
      refine ⟨by simp, ?_, by simp⟩
      simp only [ho, if_true] at hcnt
      simp [← hcnt]
    · rw [release_one_not_unloading r he hs]
      refine ⟨?_, by simpa using hcnt, by simp_all⟩
      simp only
      rw [hiff]
      constructor
      · rintro (hx | ⟨hx, _⟩)
        · exact Or.inl hx
        · exact absurd hx hs
      · rintro (hx | ⟨hx, _⟩)
        · exact Or.inl hx
        · exact absurd hx hs
  · have hm : 1 < r.refs := by omega
    rw [release_many r hm h1]
    refine ⟨?_, by simpa using hcnt, ?_⟩
    · simp only
      rw [hiff]
      constructor
      · rintro (hx | ⟨hx, _⟩)
        · exact Or.inl hx
        · exact Or.inr ⟨hx, by omega⟩
      · rintro (hx | ⟨hx, _⟩)
        · exact Or.inl hx
        · exact Or.inr ⟨hx, by omega⟩
    · intro hx
      simp only at hx ⊢
      omega

/-- Core induction: the invariant is preserved along any matched,
non-wrapping trace. -/
lemma runC2_aux : ∀ (ops : List ROp) (r : Rowset), InvC2 r →
    balanced r.refs ops = true → r.refs + acqCount ops < U64 →
    InvC2 (rrun r ops) := by
  intro ops
  induction ops with
  | nil => intro r h _ _; exact h
  | cons op l ih =>
    intro r hInv hBal hBound
    rw [rrun_cons]
    cases op with
    | load =>
        rw [balanced_load] at hBal
        exact ih r.load (InvC2_load r hInv)
          (by rw [load_refs]; exact hBal)
          (by rw [load_refs]; simpa [acqCount] using hBound)
    | close =>
        rw [balanced_close] at hBal
        exact ih r.close (InvC2_close r hInv)
          (by rw [close_refs]; exact hBal)
          (by rw [close_refs]; simpa [acqCount] using hBound)
    | acquire =>
        rw [balanced_acquire] at hBal
        have hb : r.refs + 1 < U64 := by
          have := hBound
          simp only [acqCount] at this
          omega
        have hb2 : r.refs + 1 + acqCount l < U64 := by
          simp only [acqCount] at hBound
          omega
        exact ih r.acquire (InvC2_acquire r hInv hb)
          (by rw [acquire_refs r hb]; exact hBal)
          (by rw [acquire_refs r hb]; exact hb2)
    | release =>
        obtain ⟨hpos, hBal'⟩ := balanced_release _ _ hBal
        have hlt : r.refs < U64 := by
          have := hBound
          simp only [acqCount] at this
          omega
        exact ih r.release (InvC2_release r hInv hpos hlt)
          (by rw [release_refs r hpos hlt]; exact hBal')
          (by rw [release_refs r hpos hlt]
              simp only [acqCount] at hBound
              omega)

/-! ## Preservation of the C4 configurations -/

lemma PreC4_acquire (r : Rowset) (h : PreC4 r) (hb : r.refs + 1 < U64) :
    PreC4 r.acquire := by
  obtain ⟨hs, ho, hc⟩ := h
  have hshape : r.acquire = { r with refs := r.refs + 1 } := by
    simp [Rowset.acquire, Nat.mod_eq_of_lt hb]
  rw [hshape]
  exact ⟨hs, ho, hc⟩

lemma PreC4_release (r : Rowset) (h : PreC4 r) (h0 : 0 < r.refs)
    (h1 : r.refs < U64) : PreC4 r.release := by
  obtain ⟨hs, ho, hc⟩ := h
  have hns : ¬ r.state = ROWSET_UNLOADING := by rw [hs]; simp
  by_cases he : r.refs = 1
  · rw [release_one_not_unloading r he hns]
    exact ⟨hs, ho, hc⟩
  · rw [release_many r (by omega) h1]
    exact ⟨hs, ho, hc⟩

lemma PreC4_close (r : Rowset) (h : PreC4 r) : PostC4 r.close := by
  obtain ⟨hs, ho, hc⟩ := h
  by_cases h0 : r.refs = 0
  · rw [close_of_loaded_zero r hs h0]
    exact Or.inr ⟨rfl, rfl, by simp [hc]⟩
  · rw [close_of_loaded_pos r hs h0]
    exact Or.inl ⟨rfl, Nat.pos_of_ne_zero h0, ho, hc⟩

lemma PostC4_acquire (r : Rowset) (h : PostC4 r) (hb : r.refs + 1 < U64) :
    PostC4 r.acquire := by
  have hshape : r.acquire = { r with refs := r.refs + 1 } := by
    simp [Rowset.acquire, Nat.mod_eq_of_lt hb]
  rw [hshape]
  rcases h with ⟨hs, hp, ho, hc⟩ | ⟨hs, ho, hc⟩
  · exact Or.inl ⟨hs, Nat.succ_pos r.refs, ho, hc⟩
  · exact Or.inr ⟨hs, ho, hc⟩

lemma PostC4_release (r : Rowset) (h : PostC4 r) (h0 : 0 < r.refs)
    (h1 : r.refs < U64) : PostC4 r.release := by
  rcases h with ⟨hs, hp, ho, hc⟩ | ⟨hs, ho, hc⟩
  · by_cases he : r.refs = 1
    · rw [release_drain r he hs]
      exact Or.inr ⟨rfl, rfl, by simp [hc]⟩
    · rw [release_many r (by omega) h1]
      exact Or.inl ⟨hs, by show 0 < r.refs - 1; omega, ho, hc⟩
  · have hns : ¬ r.state = ROWSET_UNLOADING := by rw [hs]; simp
    by_cases he : r.refs = 1
    · rw [release_one_not_unloading r he hns]
      exact Or.inr ⟨hs, ho, hc⟩
    · rw [release_many r (by omega) h1]
      exact Or.inr ⟨hs, ho, hc⟩

lemma PostC4_close (r : Rowset) (h : PostC4 r) : PostC4 r.close := by
  rcases h with ⟨hs, hp, ho, hc⟩ | ⟨hs, ho, hc⟩
  · rw [close_of_not_loaded r (by rw [hs]; simp)]
    exact Or.inl ⟨hs, hp, ho, hc⟩
  · rw [close_of_not_loaded r (by rw [hs]; simp)]
    exact Or.inr ⟨hs, ho, hc⟩

/-- Core induction for C4: starting from a pre-close or post-close
configuration, a load-free matched non-wrapping trace keeps the rowset in
one of the two configurations, remaining pre-close exactly while no
`close()` occurred. -/
lemma runC4_aux : ∀ (ops : List ROp) (r : Rowset), ROp.load ∉ ops →
    balanced r.refs ops = true → r.refs + acqCount ops < U64 →
    ((PreC4 r → (ROp.close ∈ ops → PostC4 (rrun r ops)) ∧
                (ROp.close ∉ ops → PreC4 (rrun r ops))) ∧
     (PostC4 r → PostC4 (rrun r ops))) := by
  intro ops
  induction ops with
  | nil =>
      intro r _ _ _
      exact ⟨fun hPre => ⟨fun hmem => absurd hmem (List.not_mem_nil _),
                          fun _ => hPre⟩,
             fun hPost => hPost⟩
  | cons op l ih =>
      intro r hload hBal hBound
      have hload' : ROp.load ∉ l := fun hx => hload (List.mem_cons_of_mem _ hx)
      have hopl : op ≠ ROp.load := fun hx => hload (hx ▸ List.mem_cons_self _ _)
      rw [rrun_cons]
      cases op with
      | load => exact absurd rfl hopl
      | close =>
          rw [balanced_close] at hBal
          have hBal1 : balanced r.close.refs l = true := by
            rw [close_refs]; exact hBal
          have hBound1 : r.close.refs + acqCount l < U64 := by
            rw [close_refs]; simpa [acqCount] using hBound
          have IH := ih r.close hload' hBal1 hBound1
          refine ⟨fun hPre => ⟨fun _ => IH.2 (PreC4_close r hPre), ?_⟩,
                  fun hPost => IH.2 (PostC4_close r hPost)⟩
          intro hmem
          exact absurd (List.mem_cons_self _ _) hmem
      | acquire =>
          rw [balanced_acquire] at hBal
          have hb : r.refs + 1 < U64 := by
            simp only [acqCount] at hBound; omega
          have hBal1 : balanced r.acquire.refs l = true := by
            rw [acquire_refs r hb]; exact hBal
          have hBound1 : r.acquire.refs + acqCount l < U64 := by
            rw [acquire_refs r hb]; simp only [acqCount] at hBound; omega
          have IH := ih r.acquire hload' hBal1 hBound1
          refine ⟨fun hPre => ?_, fun hPost => IH.2 (PostC4_acquire r hPost hb)⟩
          have hPre1 := PreC4_acquire r hPre hb
          refine ⟨fun hmem => ?_, fun hmem => ?_⟩
          · rcases List.mem_cons.mp hmem with hx | hx
            · exact absurd hx.symm (by simp)
            · exact (IH.1 hPre1).1 hx
          · exact (IH.1 hPre1).2 (fun hx => hmem (List.mem_cons_of_mem _ hx))
      | release =>
          obtain ⟨hpos, hBal'⟩ := balanced_release _ _ hBal
          have hlt : r.refs < U64 := by
            simp only [acqCount] at hBound; omega
          have hBal1 : balanced r.release.refs l = true := by
            rw [release_refs r hpos hlt]; exact hBal'
          have hBound1 : r.release.refs + acqCount l < U64 := by
            rw [release_refs r hpos hlt]
            simp only [acqCount] at hBound; omega
          have IH := ih r.release hload' hBal1 hBound1
          refine ⟨fun hPre => ?_,
                  fun hPost => IH.2 (PostC4_release r hPost hpos hlt)⟩
          have hPre1 := PreC4_release r hPre hpos hlt
          refine ⟨fun hmem => ?_, fun hmem => ?_⟩
          · rcases List.mem_cons.mp hmem with hx | hx
            · exact absurd hx.symm (by simp)
            · exact (IH.1 hPre1).1 hx
          · exact (IH.1 hPre1).2 (fun hx => hmem (List.mem_cons_of_mem _ hx))

/-- Refcount bookkeeping along a matched non-wrapping trace. -/
lemma runC4_refs : ∀ (ops : List ROp) (r : Rowset),
    balanced r.refs ops = true → r.refs + acqCount ops < U64 →
    (rrun r ops).refs + relCount ops = r.refs + acqCount ops := by
  intro ops
  induction ops with
  | nil => intro r _ _; simp [rrun, acqCount, relCount]
  | cons op l ih =>
      intro r hBal hBound
      rw [rrun_cons]
      cases op with
      | load =>
          rw [balanced_load] at hBal
          have := ih r.load (by rw [load_refs]; exact hBal)
            (by rw [load_refs]; simpa [acqCount] using hBound)
          rw [load_refs] at this
          simpa [acqCount, relCount] using this
      | close =>
          rw [balanced_close] at hBal
          have := ih r.close (by rw [close_refs]; exact hBal)
            (by rw [close_refs]; simpa [acqCount] using hBound)
          rw [close_refs] at this
          simpa [acqCount, relCount] using this
      | acquire =>
          rw [balanced_acquire] at hBal
          have hb : r.refs + 1 < U64 := by
            simp only [acqCount] at hBound; omega
          have := ih r.acquire (by rw [acquire_refs r hb]; exact hBal)
            (by rw [acquire_refs r hb]; simp only [acqCount] at hBound; omega)
          rw [acquire_refs r hb] at this
          simp only [rstep, acqCount, relCount]
          omega
      | release =>
          obtain ⟨hpos, hBal'⟩ := balanced_release _ _ hBal
          have hlt : r.refs < U64 := by
            simp only [acqCount] at hBound; omega
          have := ih r.release (by rw [release_refs r hpos hlt]; exact hBal')
            (by rw [release_refs r hpos hlt]
                simp only [acqCount] at hBound; omega)
          rw [release_refs r hpos hlt] at this
          simp only [rstep, acqCount, relCount]
          omega

/-! ## Helper lemmas: scheduler -/

lemma getCompaction_of_create_none (t : Tablet) (ty : CompactionType)
    (h : (getCompaction t ty true).1 = none) :
    getCompaction t ty true = (none, t) := by
  unfold getCompaction at h ⊢
  cases hin : t.inflightFor ty with
  | some k => rw [hin] at h; simp at h
  | none =>
      rw [hin] at h
      cases hcr : t.createFor ty with
      | some k => rw [hcr] at h; simp at h
      | none => simp

lemma canDo_of_precond_false (env : Env) (c : CompactionCandidate)
    (h : checkPrecondition c = false) :
    canDoCompaction env c =
      { found := false, needReschedule := false, task := none,
        tabletAfter := c.tablet } := by
  simp [canDoCompaction, h]

lemma precond_true_of_resched (env : Env) (c : CompactionCandidate)
    (h : (canDoCompaction env c).needReschedule = true) :
    checkPrecondition c = true := by
  by_contra hc
  rw [canDo_of_precond_false env c (Bool.eq_false_iff.mpr hc)] at h
  simp at h

lemma resched_false_of_found (env : Env) (c : CompactionCandidate)
    (h : (canDoCompaction env c).found = true) :
    (canDoCompaction env c).needReschedule = false := by
  by_cases hp : checkPrecondition c
  · match hc : c.tablet with
    | none => rw [canDo_of_precond_false env c (by simp [checkPrecondition, hc])] at h; simp at h
    | some t =>
        match hg : getCompaction t c.ttype true with
        | (some task, t1) =>
            by_cases hcap : env.reach_capacity_limit t.dir task.input_rowsets_size
            · simp [canDoCompaction, hp, hc, hg, hcap] at h
            · simp only [canDoCompaction, hp, not_true, if_false, hc, hg, hcap] at h ⊢
              simp at h ⊢
              simp [h]
        | (none, t1) => simp [canDoCompaction, hp, hc, hg] at h
  · rw [canDo_of_precond_false env c (Bool.eq_false_iff.mpr hp)] at h
    simp at h

lemma canDo_of_mat_fail (env : Env) (c : CompactionCandidate) (t : Tablet)
    (hc : c.tablet = some t) (hp : checkPrecondition c = true)
    (hg : (getCompaction t c.ttype true).1 = none) :
    canDoCompaction env c =
      { found := false, needReschedule := true, task := none,
        tabletAfter := some t } := by
  have hg2 := getCompaction_of_create_none t c.ttype hg
  simp [canDoCompaction, hp, hc, hg2]

lemma selectLoop_nil (env : Env) :
    selectLoop env [] =
      { admitted := none, rest := [], scratch := [], dropped := [], popped := [],
        dchecksOk := true } := rfl

lemma selectLoop_cons_exceed (env : Env) (c : CompactionCandidate)
    (rest : List CompactionCandidate)
    (h : env.check_if_exceed_max_task_num = true) :
    selectLoop env (c :: rest) =
      { admitted := none, rest := c :: rest, scratch := [], dropped := [],
        popped := [], dchecksOk := true } := by
  simp [selectLoop, h]

lemma selectLoop_cons_found (env : Env) (c : CompactionCandidate)
    (rest : List CompactionCandidate)
    (h : env.check_if_exceed_max_task_num = false)
    (hf : (canDoCompaction env c).found = true) :
    selectLoop env (c :: rest) =
      { admitted := match (canDoCompaction env c).task,
                          (canDoCompaction env c).tabletAfter with
          | some task, some t => some (c, task, t)
          | _, _ => none,
        rest := rest,
        scratch := [],
        dropped := [],
        popped := [c],
        dchecksOk := true } := by
  have hr := resched_false_of_found env c hf
  simp [selectLoop, h, hf, hr]

lemma selectLoop_cons_resched (env : Env) (c : CompactionCandidate)
    (rest : List CompactionCandidate)
    (h : env.check_if_exceed_max_task_num = false)
    (hf : (canDoCompaction env c).found = false)
    (hr : (canDoCompaction env c).needReschedule = true) :
    selectLoop env (c :: rest) =
      { selectLoop env rest with
          scratch := { c with tablet := (canDoCompaction env c).tabletAfter } ::
                     (selectLoop env rest).scratch,
          popped := c :: (selectLoop env rest).popped } := by
  simp [selectLoop, h, hf, hr]

lemma selectLoop_cons_dropped (env : Env) (c : CompactionCandidate)
    (rest : List CompactionCandidate)
    (h : env.check_if_exceed_max_task_num = false)
    (hf : (canDoCompaction env c).found = false)
    (hr : (canDoCompaction env c).needReschedule = false) :
    selectLoop env (c :: rest) =
      { selectLoop env rest with
          dropped := { c with tablet := (canDoCompaction env c).tabletAfter } ::
                     (selectLoop env rest).dropped,
          popped := c :: (selectLoop env rest).popped,
          dchecksOk := false } := by
  simp [selectLoop, h, hf, hr]

lemma tryGetNext_registry (env : Env) (reg : List CompactionCandidate) :
    (tryGetNextCompactionTask env reg).2 =
      (selectLoop env reg).rest ++ (selectLoop env reg).scratch := rfl

lemma selectLoop_popped_rest (env : Env) :
    ∀ reg : List CompactionCandidate,
      (selectLoop env reg).popped ++ (selectLoop env reg).rest = reg := by
  intro reg
  induction reg with
  | nil => simp [selectLoop_nil]
  | cons c rest ih =>
      by_cases h : env.check_if_exceed_max_task_num
      · rw [selectLoop_cons_exceed env c rest h]
        simp
      · have h' : env.check_if_exceed_max_task_num = false := Bool.eq_false_iff.mpr h
        by_cases hf : (canDoCompaction env c).found
        · rw [selectLoop_cons_found env c rest h' hf]
          simp
        · have hf' : (canDoCompaction env c).found = false := Bool.eq_false_iff.mpr hf
          by_cases hr : (canDoCompaction env c).needReschedule
          · rw [selectLoop_cons_resched env c rest h' hf' hr]
            simpa using ih
          · have hr' : (canDoCompaction env c).needReschedule = false :=
              Bool.eq_false_iff.mpr hr
            rw [selectLoop_cons_dropped env c rest h' hf' hr']
            simpa using ih

lemma selectLoop_classify (env : Env) :
    ∀ (reg : List CompactionCandidate) (c : CompactionCandidate),
      c ∈ (selectLoop env reg).popped →
      ((canDoCompaction env c).found = false →
       (canDoCompaction env c).needReschedule = true →
        { c with tablet := (canDoCompaction env c).tabletAfter } ∈
          (selectLoop env reg).scratch) ∧
      ((canDoCompaction env c).found = false →
       (canDoCompaction env c).needReschedule = false →
        { c with tablet := (canDoCompaction env c).tabletAfter } ∈
          (selectLoop env reg).dropped) := by
  intro reg
  induction reg with
  | nil => intro c hc; simp [selectLoop_nil] at hc
  | cons c0 rest ih =>
      intro c hc
      by_cases h : env.check_if_exceed_max_task_num
      · rw [selectLoop_cons_exceed env c0 rest h] at hc
        simp at hc
      · have h' : env.check_if_exceed_max_task_num = false := Bool.eq_false_iff.mpr h
        by_cases hf : (canDoCompaction env c0).found
        · rw [selectLoop_cons_found env c0 rest h' hf] at hc
          simp at hc
          subst hc
          exact ⟨fun hcf _ => absurd hf (by simp [hcf]),
                 fun hcf _ => absurd hf (by simp [hcf])⟩
        · have hf' : (canDoCompaction env c0).found = false := Bool.eq_false_iff.mpr hf
          by_cases hr : (canDoCompaction env c0).needReschedule
          · rw [selectLoop_cons_resched env c0 rest h' hf' hr] at hc ⊢
            simp only [List.mem_cons] at hc
            rcases hc with hc | hc
            · subst hc
              refine ⟨fun _ _ => ?_, fun _ hcr => ?_⟩
              · exact List.mem_cons_self _ _
              · rw [hcr] at hr; simp at hr
            · refine ⟨fun h1 h2 => ?_, fun h1 h2 => ?_⟩
              · exact List.mem_cons_of_mem _ ((ih c hc).1 h1 h2)
              · exact (ih c hc).2 h1 h2
          · have hr' : (canDoCompaction env c0).needReschedule = false :=
              Bool.eq_false_iff.mpr hr
            rw [selectLoop_cons_dropped env c0 rest h' hf' hr'] at hc ⊢
            simp only [List.mem_cons] at hc
            rcases hc with hc | hc
            · subst hc
              refine ⟨fun _ hcr => ?_, fun _ _ => ?_⟩
              · rw [hcr] at hr; simp at hr
              · exact List.mem_cons_self _ _
            · refine ⟨fun h1 h2 => ?_, fun h1 h2 => ?_⟩
              · exact (ih c hc).1 h1 h2
              · exact List.mem_cons_of_mem _ ((ih c hc).2 h1 h2)

lemma selectLoop_scratch_origin (env : Env) :
    ∀ (reg : List CompactionCandidate) (c1 : CompactionCandidate),
      c1 ∈ (selectLoop env reg).scratch →
      ∃ c ∈ (selectLoop env reg).popped,
        (canDoCompaction env c).found = false ∧
        (canDoCompaction env c).needReschedule = true ∧
        c1 = { c with tablet := (canDoCompaction env c).tabletAfter } := by
  intro reg
  induction reg with
  | nil => intro c1 hc; simp [selectLoop_nil] at hc
  | cons c0 rest ih =>
      intro c1 hc
      by_cases h : env.check_if_exceed_max_task_num
      · rw [selectLoop_cons_exceed env c0 rest h] at hc
        simp at hc
      · have h' : env.check_if_exceed_max_task_num = false := Bool.eq_false_iff.mpr h
        by_cases hf : (canDoCompaction env c0).found
        · rw [selectLoop_cons_found env c0 rest h' hf] at hc
          simp at hc
        · have hf' : (canDoCompaction env c0).found = false := Bool.eq_false_iff.mpr hf
          by_cases hr : (canDoCompaction env c0).needReschedule
          · rw [selectLoop_cons_resched env c0 rest h' hf' hr] at hc ⊢
            simp only [List.mem_cons] at hc
            rcases hc with hc | hc
            · exact ⟨c0, List.mem_cons_self _ _, hf', hr, hc⟩
            · obtain ⟨c, hcp, hcf, hcr, hce⟩ := ih c1 hc
              exact ⟨c, List.mem_cons_of_mem _ hcp, hcf, hcr, hce⟩
          · have hr' : (canDoCompaction env c0).needReschedule = false :=
              Bool.eq_false_iff.mpr hr
            rw [selectLoop_cons_dropped env c0 rest h' hf' hr'] at hc ⊢
            simp only at hc
            obtain ⟨c, hcp, hcf, hcr, hce⟩ := ih c1 hc
            exact ⟨c, List.mem_cons_of_mem _ hcp, hcf, hcr, hce⟩

/-! ## Helper lemmas: tablet accessors -/

lemma setInflight_lock (t : Tablet) (ty : CompactionType)
    (k : Option CompactionTask) (ty2 : CompactionType) :
    (t.setInflight ty k).lockHeldFor ty2 = t.lockHeldFor ty2 := by
  cases ty <;> cases ty2 <;> rfl

lemma setInflight_lastFailure (t : Tablet) (ty : CompactionType)
    (k : Option CompactionTask) (ty2 : CompactionType) :
    (t.setInflight ty k).lastFailureFor ty2 = t.lastFailureFor ty2 := by
  cases ty <;> cases ty2 <;> rfl

lemma setInflight_dir (t : Tablet) (ty : CompactionType)
    (k : Option CompactionTask) : (t.setInflight ty k).dir = t.dir := by
  cases ty <;> rfl

lemma reset_inflight (t : Tablet) (ty : CompactionType) :
    (resetCompaction t ty).inflightFor ty = none := by
  cases ty <;> rfl

lemma reset_lastFailure (t : Tablet) (ty ty2 : CompactionType) :
    (resetCompaction t ty).lastFailureFor ty2 = t.lastFailureFor ty2 := by
  cases ty <;> cases ty2 <;> rfl

lemma reset_eq_self (t : Tablet) (ty : CompactionType)
    (h : t.inflightFor ty = none) : resetCompaction t ty = t := by
  cases ty <;> cases t <;> simp_all [resetCompaction, Tablet.setInflight,
    Tablet.inflightFor]

lemma cand_eta (c : CompactionCandidate) (t : Tablet)
    (hc : c.tablet = some t) : { c with tablet := some t } = c := by
  cases c
  simp only at hc
  rw [hc]

lemma getCompaction_false_fst (t : Tablet) (ty : CompactionType) :
    (getCompaction t ty false).1 = t.inflightFor ty := by
  cases h : t.inflightFor ty <;> simp [getCompaction, h]

lemma precond_inflight_none (c : CompactionCandidate) (t : Tablet)
    (hc : c.tablet = some t) (hp : checkPrecondition c = true) :
    t.inflightFor c.ttype = none := by
  cases hin : t.inflightFor c.ttype with
  | none => rfl
  | some k =>
      have : (getCompaction t c.ttype false).1 = some k := by
        rw [getCompaction_false_fst, hin]
      simp [checkPrecondition, hc, this] at hp

lemma getCompaction_create_some (t : Tablet) (ty : CompactionType)
    (task : CompactionTask) (hin : t.inflightFor ty = none)
    (hg : (getCompaction t ty true).1 = some task) :
    getCompaction t ty true = (some task, t.setInflight ty (some task)) := by
  unfold getCompaction at hg ⊢
  rw [hin] at hg ⊢
  simp only [if_true] at hg ⊢
  cases hcr : t.createFor ty with
  | none => rw [hcr] at hg; simp at hg
  | some k =>
      rw [hcr] at hg
      simp at hg
      subst hg
      rfl

lemma canDo_of_task (env : Env) (c : CompactionCandidate) (t : Tablet)
    (task : CompactionTask) (t1 : Tablet)
    (hc : c.tablet = some t) (hp : checkPrecondition c = true)
    (hg : getCompaction t c.ttype true = (some task, t1)) :
    canDoCompaction env c =
      if env.reach_capacity_limit t.dir task.input_rowsets_size then
        { found := false, needReschedule := true, task := none,
          tabletAfter := some t1 }
      else
        { found := (canDoCompactionTask env t1 task).1,
          needReschedule := !(canDoCompactionTask env t1 task).1,
          task := if (canDoCompactionTask env t1 task).1 then some task else none,
          tabletAfter := some (canDoCompactionTask env t1 task).2 } := by
  by_cases hcap : env.reach_capacity_limit t.dir task.input_rowsets_size <;>
    simp [canDoCompaction, hp, hc, hg, hcap]

lemma canDoTask_eq (env : Env) (t : Tablet) (task : CompactionTask)
    (hlock : t.lockHeldFor task.ttype = false)
    (hnum : ¬ (0 ≤ capFor env task.ttype ∧
               capFor env task.ttype ≤ (runningFor env t task.ttype : Int))) :
    canDoCompactionTask env t task =
      if env.now_ms - t.lastFailureFor task.ttype ≤
          env.config.min_compaction_failure_interval_sec * 1000 then
        (false, resetCompaction t task.ttype)
      else (true, t) := by
  cases hty : task.ttype with
  | CUMULATIVE_COMPACTION =>
      rw [hty] at hlock hnum
      simp only [Tablet.lockHeldFor] at hlock
      simp only [capFor, runningFor] at hnum
      simp [canDoCompactionTask, hty, hlock, hnum, Tablet.lastFailureFor]
  | BASE_COMPACTION =>
      rw [hty] at hlock hnum
      simp only [Tablet.lockHeldFor] at hlock
      simp only [capFor, runningFor] at hnum
      simp [canDoCompactionTask, hty, hlock, hnum, Tablet.lastFailureFor]

/-! ## Claim theorems -/

/-- C3: for the rowset state machine, `on_load()` succeeds exactly from
`UNLOADED` (going to `LOADED`); `on_close(refs)` succeeds exactly from
`LOADED`, going to `UNLOADED` if `refs = 0` and to `UNLOADING` otherwise;
`on_release()` succeeds exactly from `UNLOADING` (going to `UNLOADED`); all
other transitions fail. -/
theorem rowset_state_machine_transitions :
    onLoad ROWSET_UNLOADED = some ROWSET_LOADED ∧
    onLoad ROWSET_LOADED = none ∧
    onLoad ROWSET_UNLOADING = none ∧
    (∀ refs : Nat, onClose ROWSET_LOADED refs =
      some (if refs = 0 then ROWSET_UNLOADED else ROWSET_UNLOADING)) ∧
    (∀ refs : Nat, onClose ROWSET_UNLOADED refs = none) ∧
    (∀ refs : Nat, onClose ROWSET_UNLOADING refs = none) ∧
    onRelease ROWSET_UNLOADING = some ROWSET_UNLOADED ∧
    onRelease ROWSET_UNLOADED = none ∧
    onRelease ROWSET_LOADED = none := by
  refine ⟨rfl, rfl, rfl, fun refs => ?_, fun _ => rfl, fun _ => rfl, rfl, rfl, rfl⟩
  by_cases h : refs = 0 <;> simp [onClose, h]

/-- C8: `close()` on a rowset whose state is not `LOADED` is the identity;
from `LOADED` it moves to `UNLOADED` after releasing the resources
(`do_close()` running exactly once) when the reader count is zero, and to
`UNLOADING` leaving resources untouched otherwise; the reader count is
never changed and no error is propagated (`close` is a total function into
`Rowset`). -/
theorem rowset_close_contract (r : Rowset) :
    Rowset.close r =
      if r.state = ROWSET_LOADED then
        { r with
            state := if r.refs = 0 then ROWSET_UNLOADED else ROWSET_UNLOADING,
            open_res := if r.refs = 0 then false else r.open_res,
            closes := if r.refs = 0 then r.closes + 1 else r.closes }
      else r := by
  by_cases hs : r.state = ROWSET_LOADED
  · by_cases h0 : r.refs = 0
    · rw [close_of_loaded_zero r hs h0]
      simp [hs, h0]
    · rw [close_of_loaded_pos r hs h0]
      simp [hs, h0]
  · rw [close_of_not_loaded r hs]
    simp [hs]

/-- C2 (counterexample): the claimed invariant, quantified over *every*
operation sequence, fails on the code: after
`[load, release, close, acquire]` the unmatched `release()` wraps the
`uint64_t` reader count, `close()` therefore goes to `UNLOADING` keeping
resources open, and the next `acquire()` wraps the count back to `0`,
leaving resources open in state `UNLOADING` with zero readers. -/
theorem rowset_invariant_counterexample :
    ¬ ((rrun Rowset.mk0 cexOpsC2).open_res = true ↔
       ((rrun Rowset.mk0 cexOpsC2).state = ROWSET_LOADED ∨
        ((rrun Rowset.mk0 cexOpsC2).state = ROWSET_UNLOADING ∧
         0 < (rrun Rowset.mk0 cexOpsC2).refs))) := by decide

/-- C2 (amended): for every operation sequence in which no prefix has more
`release()` than `acquire()` calls and with fewer than `2^64` acquires,
resources are open iff the state is `LOADED` or the state is `UNLOADING`
with a positive reader count, and `do_close()` has run exactly once per
completed `LOADED` episode (`closes` lags `loads` by exactly the
currently-open episode). -/
theorem rowset_invariant_holds (ops : List ROp)
    (hbal : balanced 0 ops = true) (hacq : acqCount ops < U64) :
    ((rrun Rowset.mk0 ops).open_res = true ↔
      ((rrun Rowset.mk0 ops).state = ROWSET_LOADED ∨
       ((rrun Rowset.mk0 ops).state = ROWSET_UNLOADING ∧
        0 < (rrun Rowset.mk0 ops).refs))) ∧
    (rrun Rowset.mk0 ops).closes +
        (if (rrun Rowset.mk0 ops).open_res then 1 else 0) =
      (rrun Rowset.mk0 ops).loads := by
  have hInv : InvC2 Rowset.mk0 := ⟨by decide, by decide, by decide⟩
  have hb : balanced Rowset.mk0.refs ops = true := hbal
  have hbd : Rowset.mk0.refs + acqCount ops < U64 := by
    have : Rowset.mk0.refs = 0 := rfl
    omega
  have h := runC2_aux ops Rowset.mk0 hInv hb hbd
  exact ⟨h.1, h.2.1⟩

/-- C2 (witness): the theorem applied to the episode
`[load, acquire, close, release]`. -/
theorem rowset_invariant_holds_witness :
    balanced 0 witOpsC2 = true ∧ acqCount witOpsC2 < U64 ∧
    (((rrun Rowset.mk0 witOpsC2).open_res = true ↔
       ((rrun Rowset.mk0 witOpsC2).state = ROWSET_LOADED ∨
        ((rrun Rowset.mk0 witOpsC2).state = ROWSET_UNLOADING ∧
         0 < (rrun Rowset.mk0 witOpsC2).refs))) ∧
     (rrun Rowset.mk0 witOpsC2).closes +
         (if (rrun Rowset.mk0 witOpsC2).open_res then 1 else 0) =
       (rrun Rowset.mk0 witOpsC2).loads) :=
  ⟨by decide, by decide, rowset_invariant_holds witOpsC2 (by decide) (by decide)⟩

/-- C4 (counterexample): on a never-loaded rowset, the matched trace
`[acquire, close, release]` includes a `close()`, completes all pairs and
ends `UNLOADED`, yet `do_close()` ran zero times, not once. -/
theorem rowset_drain_counterexample :
    (ROp.close ∈ cexOpsC4 ∧ balanced 0 cexOpsC4 = true ∧
     relCount cexOpsC4 = acqCount cexOpsC4 ∧
     (rrun Rowset.mk0 cexOpsC4).state = ROWSET_UNLOADED) ∧
    ¬ (rrun Rowset.mk0 cexOpsC4).closes = 1 := by decide

/-- C4 (amended): starting from a loaded rowset, every load-free trace of
`acquire()`/`release()`/`close()` operations in which each `release()` is
matched by a prior `acquire()`, all pairs complete, fewer than `2^64`
acquires occur and a `close()` was issued, ends in state `UNLOADED` with
`do_close()` having run exactly once. -/
theorem rowset_drain_closes_once (ops : List ROp) (hload : ROp.load ∉ ops)
    (hbal : balanced 0 ops = true) (hmatch : relCount ops = acqCount ops)
    (hacq : acqCount ops < U64) (hclose : ROp.close ∈ ops) :
    (rrun (Rowset.load Rowset.mk0) ops).state = ROWSET_UNLOADED ∧
    (rrun (Rowset.load Rowset.mk0) ops).closes = 1 := by
  have hr0 : (Rowset.load Rowset.mk0).refs = 0 := rfl
  have hPre : PreC4 (Rowset.load Rowset.mk0) := ⟨by decide, by decide, by decide⟩
  have hb : balanced (Rowset.load Rowset.mk0).refs ops = true := by
    rw [hr0]; exact hbal
  have hbd : (Rowset.load Rowset.mk0).refs + acqCount ops < U64 := by
    rw [hr0]; omega
  have hPost := ((runC4_aux ops (Rowset.load Rowset.mk0) hload hb hbd).1 hPre).1 hclose
  have hrefs := runC4_refs ops (Rowset.load Rowset.mk0) hb hbd
  rw [hr0] at hrefs
  have h0 : (rrun (Rowset.load Rowset.mk0) ops).refs = 0 := by omega
  rcases hPost with ⟨_, hp, _, _⟩ | ⟨hs, _, hc⟩
  · rw [h0] at hp
    exact absurd hp (lt_irrefl 0)
  · exact ⟨hs, hc⟩

/-- C4 (witness): the theorem applied to `[acquire, close, release]` from
the loaded state. -/
theorem rowset_drain_closes_once_witness :
    (ROp.load ∉ witOpsC4 ∧ balanced 0 witOpsC4 = true ∧
     relCount witOpsC4 = acqCount witOpsC4 ∧ acqCount witOpsC4 < U64 ∧
     ROp.close ∈ witOpsC4) ∧
    ((rrun (Rowset.load Rowset.mk0) witOpsC4).state = ROWSET_UNLOADED ∧
     (rrun (Rowset.load Rowset.mk0) witOpsC4).closes = 1) :=
  ⟨⟨by decide, by decide, by decide, by decide, by decide⟩,
   rowset_drain_closes_once witOpsC4 (by decide) (by decide) (by decide)
     (by decide) (by decide)⟩

/-- C1 (counterexample): a candidate that passes the precondition but whose
tablet fails to materialize a task (`get_compaction(kind, true)` returns
none) is *not* dropped: after the selection round it is back in the
registry. -/
theorem mat_fail_counterexample :
    checkPrecondition candC1 = true ∧
    (getCompaction tabC1 CUMULATIVE_COMPACTION true).1 = none ∧
    candC1 ∈ (tryGetNextCompactionTask envC1 [candC1]).2 := by decide

/-- C1 (amended): for every candidate popped during selection whose
precondition check passes but whose tablet fails to materialize a task,
`need_reschedule` remains true, so the candidate is saved to the scratch
list and re-inserted into the registry at the end of the round. -/
theorem mat_fail_requeued (env : Env) (c : CompactionCandidate) (t : Tablet)
    (hc : c.tablet = some t) (hp : checkPrecondition c = true)
    (hg : (getCompaction t c.ttype true).1 = none) :
    canDoCompaction env c =
      { found := false, needReschedule := true, task := none,
        tabletAfter := some t } ∧
    ∀ reg : List CompactionCandidate,
      c ∈ (selectLoop env reg).popped →
      c ∈ (tryGetNextCompactionTask env reg).2 := by
  have hcd := canDo_of_mat_fail env c t hc hp hg
  refine ⟨hcd, fun reg hpop => ?_⟩
  have hcl := (selectLoop_classify env reg c hpop).1 (by rw [hcd]) (by rw [hcd])
  have he : { c with tablet := (canDoCompaction env c).tabletAfter } = c := by
    rw [hcd]
    exact cand_eta c t hc
  rw [tryGetNext_registry]
  exact List.mem_append_right _ (he ▸ hcl)

/-- C1 (witness): the amended theorem applied to the concrete candidate
`candC1` in a one-element registry. -/
theorem mat_fail_requeued_witness :
    candC1.tablet = some tabC1 ∧ checkPrecondition candC1 = true ∧
    (getCompaction tabC1 candC1.ttype true).1 = none ∧
    canDoCompaction envC1 candC1 =
      { found := false, needReschedule := true, task := none,
        tabletAfter := some tabC1 } ∧
    candC1 ∈ (tryGetNextCompactionTask envC1 [candC1]).2 := by
  have h := mat_fail_requeued envC1 candC1 tabC1 rfl (by decide) (by decide)
  exact ⟨rfl, by decide, by decide, h.1, h.2 [candC1] (by decide)⟩

/-- C5: in every selection round, (i) the registry after the round is the
unexamined remainder plus the scratch list appended in one bulk call;
(ii) the popped candidates are exactly the consumed front of the registry;
(iii) every popped candidate failing the precondition goes to the dropped
list; (iv) every scratch entry originates from a precondition-passing
popped candidate; (v) every popped candidate that materialized a task but
failed only a transient check (capacity limit, or the try-lock/per-disk
cap/backoff checks of `_can_do_compaction_task`) is re-inserted into the
registry. -/
theorem selection_drop_vs_requeue (env : Env) (reg : List CompactionCandidate) :
    (tryGetNextCompactionTask env reg).2 =
      (selectLoop env reg).rest ++ (selectLoop env reg).scratch ∧
    (selectLoop env reg).popped ++ (selectLoop env reg).rest = reg ∧
    (∀ c ∈ (selectLoop env reg).popped, checkPrecondition c = false →
      c ∈ (selectLoop env reg).dropped) ∧
    (∀ c1 ∈ (selectLoop env reg).scratch,
      ∃ c ∈ (selectLoop env reg).popped, checkPrecondition c = true ∧
        c1 = { c with tablet := (canDoCompaction env c).tabletAfter }) ∧
    (∀ c ∈ (selectLoop env reg).popped, ∀ (t : Tablet) (task : CompactionTask),
      c.tablet = some t → checkPrecondition c = true →
      (getCompaction t c.ttype true).1 = some task →
      (env.reach_capacity_limit t.dir task.input_rowsets_size = true ∨
        (canDoCompactionTask env (getCompaction t c.ttype true).2 task).1 = false) →
      { c with tablet := (canDoCompaction env c).tabletAfter } ∈
        (tryGetNextCompactionTask env reg).2) := by
  refine ⟨tryGetNext_registry env reg, selectLoop_popped_rest env reg,
          fun c hpop hpre => ?_, fun c1 hsc => ?_,
          fun c hpop t task hct hpre hg htrans => ?_⟩
  · have hcd := canDo_of_precond_false env c hpre
    have hcl := (selectLoop_classify env reg c hpop).2 (by rw [hcd]) (by rw [hcd])
    have he : { c with tablet := (canDoCompaction env c).tabletAfter } = c := by
      rw [hcd]
    exact he ▸ hcl
  · obtain ⟨c, hcp, hcf, hcr, hce⟩ := selectLoop_scratch_origin env reg c1 hsc
    exact ⟨c, hcp, precond_true_of_resched env c hcr, hce⟩
  · have hin := precond_inflight_none c t hct hpre
    have hgf := getCompaction_create_some t c.ttype task hin hg
    have hcd := canDo_of_task env c t task (t.setInflight c.ttype (some task))
      hct hpre hgf
    have hres : (canDoCompaction env c).found = false ∧
        (canDoCompaction env c).needReschedule = true := by
      rcases htrans with hcap | htask
      · rw [hcd, if_pos hcap]
        exact ⟨rfl, rfl⟩
      · rw [hgf] at htask
        by_cases hcap : env.reach_capacity_limit t.dir task.input_rowsets_size
        · rw [hcd, if_pos hcap]
          exact ⟨rfl, rfl⟩
        · rw [hcd, if_neg hcap]
          simp [htask]
    have hcl := (selectLoop_classify env reg c hpop).1 hres.1 hres.2
    rw [tryGetNext_registry]
    exact List.mem_append_right _ hcl

/-- C5 (witness): the theorem applied to a registry holding a
not-`RUNNING` candidate (dropped) and a lock-contended candidate
(scratch-listed and re-inserted). -/
theorem selection_drop_vs_requeue_witness :
    candC5drop ∈ (selectLoop envC5 [candC5drop, candC5lock]).popped ∧
    checkPrecondition candC5drop = false ∧
    candC5drop ∈ (selectLoop envC5 [candC5drop, candC5lock]).dropped ∧
    candC5lock ∈ (selectLoop envC5 [candC5drop, candC5lock]).popped ∧
    checkPrecondition candC5lock = true ∧
    (getCompaction tabC5lock candC5lock.ttype true).1 = some taskC5 ∧
    { candC5lock with
        tablet := (canDoCompaction envC5 candC5lock).tabletAfter } ∈
      (tryGetNextCompactionTask envC5 [candC5drop, candC5lock]).2 := by
  have h := selection_drop_vs_requeue envC5 [candC5drop, candC5lock]
  refine ⟨by decide, by decide,
          h.2.2.1 candC5drop (by decide) (by decide),
          by decide, by decide, by decide,
          h.2.2.2.2 candC5lock (by decide) tabC5lock taskC5 rfl (by decide)
            (by decide) (Or.inr (by decide))⟩

/-- C6: when worker-pool submission of an admitted task fails, the
scheduler resets the tablet's in-flight marker for that kind, pushes a
candidate for the same tablet and kind back into the registry, and leaves
the tablet's last-failure times (both kinds) unchanged. -/
theorem submit_fail_undo (env : Env) (reg : List CompactionCandidate)
    (c : CompactionCandidate) (task : CompactionTask) (t : Tablet)
    (h : (tryGetNextCompactionTask env reg).1 = some (c, task, t)) :
    (scheduleOnce env reg false).tabletAfter =
      some (resetCompaction t task.ttype) ∧
    (resetCompaction t task.ttype).inflightFor task.ttype = none ∧
    (∀ ty, (resetCompaction t task.ttype).lastFailureFor ty =
      t.lastFailureFor ty) ∧
    ({ tablet := some (resetCompaction t task.ttype), ttype := task.ttype,
       score := 0 } : CompactionCandidate) ∈
      (scheduleOnce env reg false).registryAfter := by
  refine ⟨by simp [scheduleOnce, h], reset_inflight t task.ttype,
          fun ty => reset_lastFailure t task.ttype ty, ?_⟩
  simp [scheduleOnce, h]

/-- C6 (witness): the theorem applied to the concrete admitted candidate
`candC6`. -/
theorem submit_fail_undo_witness :
    (tryGetNextCompactionTask envC6 [candC6]).1 =
      some (candC6, taskC6, tabC6after) ∧
    (scheduleOnce envC6 [candC6] false).tabletAfter =
      some (resetCompaction tabC6after taskC6.ttype) ∧
    (resetCompaction tabC6after taskC6.ttype).inflightFor taskC6.ttype = none ∧
    ({ tablet := some (resetCompaction tabC6after taskC6.ttype),
       ttype := taskC6.ttype, score := 0 } : CompactionCandidate) ∈
      (scheduleOnce envC6 [candC6] false).registryAfter := by
  have hadm : (tryGetNextCompactionTask envC6 [candC6]).1 =
      some (candC6, taskC6, tabC6after) := by decide
  have h := submit_fail_undo envC6 [candC6] candC6 taskC6 tabC6after hadm
  exact ⟨hadm, h.1, h.2.1, h.2.2.2⟩

/-- C7: for a candidate passing the precondition whose task materializes
and with the capacity, try-lock and per-disk running-count checks all
passing, the task is admitted iff `now - last_failure_time` strictly
exceeds the configured minimum failure interval; while
`now - last_failure_time` is at most the interval, the candidate is not
admitted and `need_reschedule` is true (re-queued, not dropped). -/
theorem backoff_window (env : Env) (c : CompactionCandidate) (t : Tablet)
    (task : CompactionTask)
    (hct : c.tablet = some t) (hp : checkPrecondition c = true)
    (hg : (getCompaction t c.ttype true).1 = some task)
    (hty : task.ttype = c.ttype)
    (hcap : env.reach_capacity_limit t.dir task.input_rowsets_size = false)
    (hlock : t.lockHeldFor c.ttype = false)
    (hnum : ¬ (0 ≤ capFor env c.ttype ∧
               capFor env c.ttype ≤ (runningFor env t c.ttype : Int))) :
    ((canDoCompaction env c).found = true ↔
      env.config.min_compaction_failure_interval_sec * 1000 <
        env.now_ms - t.lastFailureFor c.ttype) ∧
    (env.now_ms - t.lastFailureFor c.ttype ≤
        env.config.min_compaction_failure_interval_sec * 1000 →
      (canDoCompaction env c).found = false ∧
      (canDoCompaction env c).needReschedule = true ∧
      (canDoCompaction env c).task = none) := by
  have hin := precond_inflight_none c t hct hp
  have hgf := getCompaction_create_some t c.ttype task hin hg
  have hcd := canDo_of_task env c t task (t.setInflight c.ttype (some task))
    hct hp hgf
  rw [if_neg (by rw [hcap]; exact Bool.false_ne_true)] at hcd
  have hlock1 : (t.setInflight c.ttype (some task)).lockHeldFor task.ttype
      = false := by
    rw [setInflight_lock, hty, hlock]
  have hnum1 : ¬ (0 ≤ capFor env task.ttype ∧ capFor env task.ttype ≤
      (runningFor env (t.setInflight c.ttype (some task)) task.ttype : Int)) := by
    rw [hty]
    intro hx
    apply hnum
    refine ⟨hx.1, ?_⟩
    have : runningFor env (t.setInflight c.ttype (some task)) c.ttype =
        runningFor env t c.ttype := by
      cases hcty : c.ttype <;> simp [runningFor, setInflight_dir]
    rw [this] at hx
    exact hx.2
  have hq := canDoTask_eq env (t.setInflight c.ttype (some task)) task hlock1 hnum1
  rw [setInflight_lastFailure, hty] at hq
  by_cases hwin : env.now_ms - t.lastFailureFor c.ttype ≤
      env.config.min_compaction_failure_interval_sec * 1000
  · rw [if_pos hwin] at hq
    rw [hq] at hcd
    refine ⟨?_, fun _ => ?_⟩
    · rw [hcd]
      simp only
      constructor
      · intro hx
        exact absurd hx (by simp)
      · intro hx
        omega
    · rw [hcd]
      exact ⟨rfl, rfl, rfl⟩
  · rw [if_neg hwin] at hq
    rw [hq] at hcd
    refine ⟨?_, fun hx => absurd hx hwin⟩
    rw [hcd]
    simp only
    constructor
    · intro _
      omega
    · intro _
      trivial

/-- C7 (witness): the theorem applied to `candC7`, which is inside its
backoff window (`now - last = 5000 ≤ 10000`). -/
theorem backoff_window_witness :
    checkPrecondition candC7 = true ∧
    (getCompaction tabC7 candC7.ttype true).1 = some taskC7 ∧
    envC7.now_ms - tabC7.lastFailureFor candC7.ttype ≤
      envC7.config.min_compaction_failure_interval_sec * 1000 ∧
    (canDoCompaction envC7 candC7).found = false ∧
    (canDoCompaction envC7 candC7).needReschedule = true ∧
    (canDoCompaction envC7 candC7).task = none := by
  have h := backoff_window envC7 candC7 tabC7 taskC7 rfl (by decide) (by decide)
    rfl (by decide) (by decide) (by decide)
  have h2 := h.2 (by decide)
  exact ⟨by decide, by decide, by decide, h2.1, h2.2.1, h2.2.2⟩

/-- C9: `_can_do_compaction_task` returns the tablet with the in-flight
marker for the task's kind reset (the `DeferOp` ran `reset_compaction`)
exactly when it returns false, and the unchanged tablet when it returns
true; resetting clears the marker, and on a tablet that had no in-flight
task the reset restores it exactly to its original state. -/
theorem can_do_task_reset_marker (env : Env) (t : Tablet)
    (task : CompactionTask) :
    ((canDoCompactionTask env t task).2 =
      if (canDoCompactionTask env t task).1 then t
      else resetCompaction t task.ttype) ∧
    (resetCompaction t task.ttype).inflightFor task.ttype = none ∧
    (t.inflightFor task.ttype = none → resetCompaction t task.ttype = t) := by
  refine ⟨?_, reset_inflight t task.ttype, reset_eq_self t task.ttype⟩
  unfold canDoCompactionTask
  cases task.ttype <;> dsimp only <;> split <;> simp_all <;> split <;> simp_all

/-- C9 (witness): the theorem applied to `tabC9` (base lock held, no task
in flight): the verdict is false and the returned tablet equals the reset
(= original) tablet. -/
theorem can_do_task_reset_marker_witness :
    tabC9.inflightFor taskC9.ttype = none ∧
    (canDoCompactionTask envC9 tabC9 taskC9).1 = false ∧
    ((canDoCompactionTask envC9 tabC9 taskC9).2 =
      if (canDoCompactionTask envC9 tabC9 taskC9).1 then tabC9
      else resetCompaction tabC9 taskC9.ttype) ∧
    resetCompaction tabC9 taskC9.ttype = tabC9 :=
  ⟨by decide, by decide, (can_do_task_reset_marker envC9 tabC9 taskC9).1,
   (can_do_task_reset_marker envC9 tabC9 taskC9).2.2 (by decide)⟩

/-- C10: the assertion `DCHECK(found)` in the non-reschedule branch of
`_try_get_next_compaction_task` does *not* hold for every reachable input:
popping the reachable candidate `candC10`, whose tablet simply no longer
needs compaction, makes `_can_do_compaction` return `found = false` with
`need_reschedule = false`, so the non-reschedule branch executes
`DCHECK(found)` with `found = false`. -/
theorem dcheck_found_violated :
    checkPrecondition candC10 = false ∧
    canDoCompaction envC10 candC10 =
      { found := false, needReschedule := false, task := none,
        tabletAfter := some tabC10 } ∧
    (selectLoop envC10 [candC10]).dchecksOk = false := by decide

end StarRocks
